import Mathlib

/-!
Verification of the storj satellite OIDC endpoint slice and the overlay
inspector, shallowly embedded from `src/satellite/oidc/endpoint.go` and
`src/satellite/overlay/inspector.go`.  External collaborators (the token
store, the console user service, the generic oauth2 protocol engine, the
uuid library and JSON marshaling) are abstracted as function-valued fields
of the `Endpoint` environment, mirroring the interfaces the Go code calls.
-/

/- ## The scope codec

The repository's `parseScope` (package `satellite/oidc`) is called from
`endpoint.go` but its defining file is not part of the source slice, so the
codec below is modelled from the spec (section 4.1): the structured Scope —
a project, a list of buckets and a cubbyhole payload — is serialized into a
single space-separated list of `field:value` items; the codec owns the
escaping of the separator, decoding fails closed on a malformed item, and
unknown but well-formed fields are ignored for forward compatibility. -/

/-- Escape one character of a field value: the separator and the escape
character themselves are written as two-digit percent codes. -/
def escChar (c : Char) : List Char :=
  if c = ' ' then ['%', '2', '0'] else if c = '%' then ['%', '2', '5'] else [c]

/-- Escape every character of a field value. -/
def escChars : List Char → List Char
  | [] => []
  | c :: cs => escChar c ++ escChars cs

/-- Undo `escChars`; fails on a percent sign not starting a valid code. -/
def unescChars : List Char → Option (List Char)
  | [] => some []
  | c :: cs =>
    if c = '%' then
      match cs with
      | [] => none
      | [_] => none
      | d :: e :: rest =>
        if d = '2' ∧ e = '0' then (unescChars rest).map fun l => ' ' :: l
        else if d = '2' ∧ e = '5' then (unescChars rest).map fun l => '%' :: l
        else none
    else (unescChars cs).map fun l => c :: l

theorem unescChars_escChars (l : List Char) : unescChars (escChars l) = some l := by
  induction l with
  | nil => rfl
  | cons c cs ih =>
    by_cases h1 : c = ' '
    · subst h1
      simp [escChars, escChar, unescChars, ih]
    · by_cases h2 : c = '%'
      · subst h2
        simp [escChars, escChar, unescChars, h1, ih]
      · have hesc : escChars (c :: cs) = c :: escChars cs := by
          simp [escChars, escChar, h1, h2]
        rw [hesc, unescChars.eq_def]
        simp [h2, ih]

theorem space_notin_escChar (c : Char) : ' ' ∉ escChar c := by
  unfold escChar
  by_cases h1 : c = ' '
  · simp [h1]
  · by_cases h2 : c = '%'
    · simp [h1, h2]
    · simp [h1, h2]
      exact fun h => h1 h.symm

theorem space_notin_escChars (l : List Char) : ' ' ∉ escChars l := by
  induction l with
  | nil => simp [escChars]
  | cons c cs ih =>
    simp only [escChars, List.mem_append]
    intro h
    rcases h with h | h
    · exact space_notin_escChar c h
    · exact ih h

/-- Split a character list at every separator (inverse of `joinSp` on
separator-free pieces). -/
def splitSp : List Char → List (List Char)
  | [] => [[]]
  | c :: cs =>
    let rest := splitSp cs
    if c = ' ' then [] :: rest
    else (c :: rest.headD []) :: rest.tail

/-- Join token pieces with the separator. -/
def joinSp : List (List Char) → List Char
  | [] => []
  | [t] => t
  | t :: t2 :: ts => t ++ ' ' :: joinSp (t2 :: ts)

theorem splitSp_ne_nil (l : List Char) : splitSp l ≠ [] := by
  induction l with
  | nil => simp [splitSp]
  | cons c cs ih =>
    by_cases h : c = ' ' <;> simp [splitSp, h]

theorem splitSp_no_space (t : List Char) (h : ' ' ∉ t) : splitSp t = [t] := by
  induction t with
  | nil => rfl
  | cons c cs ih =>
    have hc : ¬ c = ' ' := fun hc => h (hc ▸ List.mem_cons_self c cs)
    have hcs : ' ' ∉ cs := fun hm => h (List.mem_cons_of_mem c hm)
    simp [splitSp, hc, ih hcs]

theorem splitSp_append (t r : List Char) (h : ' ' ∉ t) :
    splitSp (t ++ ' ' :: r) = t :: splitSp r := by
  induction t with
  | nil => simp [splitSp]
  | cons c cs ih =>
    have hc : ¬ c = ' ' := fun hc => h (hc ▸ List.mem_cons_self c cs)
    have hcs : ' ' ∉ cs := fun hm => h (List.mem_cons_of_mem c hm)
    simp [List.cons_append, splitSp, hc, ih hcs]

theorem splitSp_joinSp (ts : List (List Char)) (hne : ts ≠ [])
    (hsp : ∀ t ∈ ts, ' ' ∉ t) : splitSp (joinSp ts) = ts := by
  induction ts with
  | nil => exact absurd rfl hne
  | cons t rest ih =>
    cases rest with
    | nil =>
      show splitSp (joinSp [t]) = [t]
      exact splitSp_no_space t (hsp t (List.mem_cons_self t []))
    | cons t2 rest2 =>
      show splitSp (t ++ ' ' :: joinSp (t2 :: rest2)) = t :: t2 :: rest2
      rw [splitSp_append t _ (hsp t (List.mem_cons_self t _))]
      rw [ih (by simp) (fun u hu => hsp u (List.mem_cons_of_mem t hu))]

/-- Split a token at its first colon into field name and raw value;
fails when the token carries no colon at all. -/
def splitColon : List Char → Option (List Char × List Char)
  | [] => none
  | c :: cs =>
    if c = ':' then some ([], cs)
    else (splitColon cs).map fun p => (c :: p.1, p.2)

theorem splitColon_append (f v : List Char) (h : ':' ∉ f) :
    splitColon (f ++ ':' :: v) = some (f, v) := by
  induction f with
  | nil => simp [splitColon]
  | cons c cs ih =>
    have hc : ¬ c = ':' := fun hc => h (hc ▸ List.mem_cons_self c cs)
    have hcs : ':' ∉ cs := fun hm => h (List.mem_cons_of_mem c hm)
    simp [List.cons_append, splitColon, hc, ih hcs]

/-- The structured authorization Scope of the spec's data model: the target
resource set (a project and the buckets the user consented to expose) plus
the encrypted cubbyhole key-sharing payload. -/
structure Scope where
  project : String
  buckets : List String
  cubbyhole : String
deriving DecidableEq

/-- One encoded item of the flat scope string: field name, colon, escaped value. -/
def fieldToken (name value : List Char) : List Char := name ++ ':' :: escChars value

/-- Field name of the project item. -/
def projectField : List Char := "project".data

/-- Field name of a bucket item. -/
def bucketField : List Char := "bucket".data

/-- Field name of the cubbyhole item. -/
def cubbyholeField : List Char := "cubbyhole".data

/-- The token list a structured Scope serializes to. -/
def scopeItems (s : Scope) : List (List Char) :=
  fieldToken projectField s.project.data
    :: (s.buckets.map fun b => fieldToken bucketField b.data)
    ++ [fieldToken cubbyholeField s.cubbyhole.data]

/-- Modelled from the spec: `encode(Scope) -> string` of the Scope Codec
(section 4.1); the codec itself lives in the repository's oidc package
outside this source slice.  The structured Scope is written as a
space-separated list of `field:value` items with the separator escaped
inside values. -/
def encodeScope (s : Scope) : String := String.mk (joinSp (scopeItems s))

/-- Fold one decoded item into the Scope being rebuilt: known fields are
assigned (buckets accumulate in order), unknown but well-formed fields are
ignored for forward compatibility, and a malformed item fails the decode. -/
def applyItem (acc : Scope) (tok : List Char) : Option Scope :=
  match splitColon tok with
  | none => none
  | some (f, v) =>
    if f = projectField then (unescChars v).map fun p => { acc with project := String.mk p }
    else if f = bucketField then
      (unescChars v).map fun b => { acc with buckets := acc.buckets ++ [String.mk b] }
    else if f = cubbyholeField then
      (unescChars v).map fun p => { acc with cubbyhole := String.mk p }
    else some acc

def applyItems : Scope → List (List Char) → Option Scope
  | acc, [] => some acc
  | acc, t :: ts =>
    match applyItem acc t with
    | none => none
    | some acc2 => applyItems acc2 ts

/-- Modelled from the spec: `decode(string) -> (Scope, error)` of the Scope
Codec (section 4.1); the repository's `parseScope` is not under the source
slice.  Decoding splits the flat string on the separator and folds every
item, failing closed on any malformed item. -/
def decodeScope (str : String) : Option Scope :=
  applyItems ⟨"", [], ""⟩ (splitSp str.data)

theorem mk_data (s : String) : String.mk s.data = s := rfl

theorem space_notin_fieldToken (nm v : List Char) (h : ' ' ∉ nm) :
    ' ' ∉ fieldToken nm v := by
  simp only [fieldToken, List.mem_append, List.mem_cons]
  rintro (hm | hm | hm)
  · exact h hm
  · exact (by decide : (' ' : Char) ≠ ':') hm
  · exact space_notin_escChars v hm

theorem scopeItems_ne_nil (s : Scope) : scopeItems s ≠ [] := by
  simp [scopeItems]

theorem space_notin_scopeItems (s : Scope) : ∀ t ∈ scopeItems s, ' ' ∉ t := by
  intro t ht
  unfold scopeItems at ht
  rcases List.mem_cons.mp ht with h | h2
  · subst h
    exact space_notin_fieldToken _ _ (by decide)
  · rcases List.mem_append.mp h2 with h3 | h4
    · rcases List.mem_map.mp h3 with ⟨b, hb, heq⟩
      rw [← heq]
      exact space_notin_fieldToken _ _ (by decide)
    · rcases List.mem_singleton.mp h4 with rfl
      exact space_notin_fieldToken _ _ (by decide)

theorem applyItem_project (acc : Scope) (v : List Char) :
    applyItem acc (fieldToken projectField v) =
      some { acc with project := String.mk v } := by
  unfold applyItem fieldToken
  rw [splitColon_append _ _ (by decide)]
  simp [unescChars_escChars]

theorem applyItem_bucket (acc : Scope) (v : List Char) :
    applyItem acc (fieldToken bucketField v) =
      some { acc with buckets := acc.buckets ++ [String.mk v] } := by
  have hne1 : ¬ (bucketField = projectField) := by decide
  unfold applyItem fieldToken
  rw [splitColon_append _ _ (by decide)]
  simp [hne1, unescChars_escChars]

theorem applyItem_cubbyhole (acc : Scope) (v : List Char) :
    applyItem acc (fieldToken cubbyholeField v) =
      some { acc with cubbyhole := String.mk v } := by
  have hne1 : ¬ (cubbyholeField = projectField) := by decide
  have hne2 : ¬ (cubbyholeField = bucketField) := by decide
  unfold applyItem fieldToken
  rw [splitColon_append _ _ (by decide)]
  simp [hne1, hne2, unescChars_escChars]

theorem applyItems_buckets (bs : List String) (acc : Scope) (rest : List (List Char)) :
    applyItems acc ((bs.map fun b => fieldToken bucketField b.data) ++ rest)
      = applyItems { acc with buckets := acc.buckets ++ bs } rest := by
  induction bs generalizing acc with
  | nil => simp
  | cons b bs ih =>
    simp only [List.map_cons, List.cons_append, applyItems, applyItem_bucket, mk_data,
      List.append_eq]
    rw [ih]
    simp [List.append_assoc]

theorem decodeScope_encodeScope (s : Scope) : decodeScope (encodeScope s) = some s := by
  unfold decodeScope encodeScope
  rw [mk_data ⟨joinSp (scopeItems s)⟩]
  rw [splitSp_joinSp _ (scopeItems_ne_nil s) (space_notin_scopeItems s)]
  unfold scopeItems
  simp only [applyItems, applyItem_project, mk_data, List.append_eq]
  rw [applyItems_buckets]
  simp only [List.nil_append, applyItems, applyItem_cubbyhole, mk_data]

/- ## Data model of the endpoint (src/satellite/oidc/endpoint.go) -/

/-- An opaque user identifier from the external `storj.io/common/uuid`
library; only passed around and compared by the endpoint. -/
structure UUID where
  val : String
deriving DecidableEq

/-- The part of the external oauth2 `TokenInfo` interface the user-info
handler reads: `GetScope` and `GetUserID`. -/
structure TokenInfo where
  scope : String
  userID : String
deriving DecidableEq

/-- The `UserInfo` document of endpoint.go (lines 188-198): standard claims
sub, email and email_verified, plus the custom project, buckets and
cubbyhole values. -/
structure UserInfo where
  subject : UUID
  email : String
  emailVerified : Bool
  project : String
  buckets : List String
  cubbyhole : String
deriving DecidableEq

/-- Modelled from the spec: the account status kept by the console service
(package satellite/console, not under the source slice); the user-info path
only distinguishes active from everything else. -/
inductive UserStatus where
  | inactive
  | active
  | deleted
deriving DecidableEq

/-- The slice of the console user record the handler reads: ID, Email and
Status. -/
structure User where
  id : UUID
  email : String
  status : UserStatus
deriving DecidableEq

/-- An HTTP response as the handlers produce it: the status code and the
payload handed to the writer (`http.Error` text or served content). -/
structure Response where
  status : Nat
  body : String
deriving DecidableEq

/-- Models `http.Error(w, msg, code)`: the error text becomes the body. -/
def httpError (msg : String) (code : Nat) : Response :=
  { status := code, body := msg }

/-- The part of the request the handlers read: the Authorization header
value (`r.Header.Get` yields the empty string when the header is absent). -/
structure Request where
  authorization : String
deriving DecidableEq

/-- An error returned by the delegated oauth2 protocol engine; `message` is
what its `Error()` method yields. -/
structure GoError where
  message : String
deriving DecidableEq

/-- The `ProviderConfig` struct of endpoint.go (lines 178-183). -/
structure ProviderConfig where
  issuer : String
  authURL : String
  tokenURL : String
  userInfoURL : String
deriving DecidableEq

/-- The json field names and values `ProviderConfig` marshals to, exactly as
given by its json struct tags in endpoint.go. -/
def ProviderConfig.jsonFields (c : ProviderConfig) : List (String × String) :=
  [("issuer", c.issuer), ("authorization_endpoint", c.authURL),
   ("token_endpoint", c.tokenURL), ("userinfo_endpoint", c.userInfoURL)]

/-- The `Endpoint` of endpoint.go together with its external collaborators
as function-valued fields: the token store (`GetByAccess`), the uuid
library (`uuid.FromString`), the console service (`GetUser`), JSON
marshaling, and the delegated oauth2 server's two request handlers. -/
structure Endpoint where
  getByAccess : String → Except Unit (Option TokenInfo)
  uuidFromString : String → Option UUID
  getUser : UUID → Option User
  marshalUserInfo : UserInfo → Except Unit String
  marshalConfig : ProviderConfig → Except Unit String
  handleAuthorizeRequest : Request → Option GoError
  handleTokenRequest : Request → Option GoError
  config : ProviderConfig

/-- Models Go `strings.HasPrefix` (byte-wise, hence case-sensitive). -/
def goStartsWith (s p : String) : Bool := p.data.isPrefixOf s.data

/-- Models Go `strings.TrimPrefix`: the head is removed only when present. -/
def goTrimHead (s p : String) : String :=
  if goStartsWith s p then String.mk (s.data.drop p.data.length) else s

/-- Modelled from the spec: the repository's `parseScope` (satellite/oidc,
not under the source slice) decodes the flat scope string into a `UserInfo`
whose resource-set claims come from the decoded Scope; the standard claims
stay at their zero values until the handler fills them in. -/
def parseScope (s : String) : Option UserInfo :=
  (decodeScope s).map fun sc =>
    { subject := ⟨""⟩, email := "", emailVerified := false,
      project := sc.project, buckets := sc.buckets, cubbyhole := sc.cubbyhole }

/- ## The handlers -/

/-- The tail of `Endpoint.UserInfo` (endpoint.go lines 141-175) once a token
record has been fetched: decode the scope, parse the bound user id, resolve
the user, reject a non-active account, overwrite the standard claims from
the resolved user and serialize. -/
def Endpoint.userInfoWithToken (e : Endpoint) (info : TokenInfo) : Response :=
  match parseScope info.scope with
  | none => httpError "" 401
  | some ui =>
    match e.uuidFromString info.userID with
    | none => httpError "" 401
    | some userID =>
      match e.getUser userID with
      | none => httpError "" 401
      | some user =>
        if user.status ≠ UserStatus.active then httpError "" 401
        else
          let ui2 := { ui with subject := user.id, email := user.email,
                               emailVerified := true }
          match e.marshalUserInfo ui2 with
          | .error _ => httpError "" 500
          | .ok data => { status := 200, body := data }

/-- `Endpoint.UserInfo` (endpoint.go lines 122-175): check the bearer
header, strip it, look the token up, then continue as above. -/
def Endpoint.userInfo (e : Endpoint) (r : Request) : Response :=
  if goStartsWith r.authorization "Bearer " then
    match e.getByAccess (goTrimHead r.authorization "Bearer ") with
    | .error _ => httpError "" 401
    | .ok none => httpError "" 401
    | .ok (some info) => e.userInfoWithToken info
  else httpError "" 401

/-- `Endpoint.WellKnownConfiguration` (endpoint.go lines 82-94): serve the
marshaled provider configuration, 500 on a serialization error. -/
def Endpoint.wellKnownConfiguration (e : Endpoint) : Response :=
  match e.marshalConfig e.config with
  | .error _ => httpError "" 500
  | .ok data => { status := 200, body := data }

/-- `Endpoint.AuthorizeUser` (endpoint.go lines 98-107): delegate to the
protocol engine; when it reports an error, answer 400 with `err.Error()` as
the body (`none` means the engine already wrote the response itself). -/
def Endpoint.authorizeUser (e : Endpoint) (r : Request) : Option Response :=
  match e.handleAuthorizeRequest r with
  | some err => some (httpError err.message 400)
  | none => none

/-- `Endpoint.Tokens` (endpoint.go lines 110-119): same shape as
`AuthorizeUser` around the engine's token handler. -/
def Endpoint.tokens (e : Endpoint) (r : Request) : Option Response :=
  match e.handleTokenRequest r with
  | some err => some (httpError err.message 400)
  | none => none

/-- `NewEndpoint` (endpoint.go lines 57-67): the provider configuration
derived from the external address. -/
def newEndpointConfig (externalAddress : String) : ProviderConfig :=
  { issuer := externalAddress,
    authURL := externalAddress ++ "oauth/v2/authorize",
    tokenURL := externalAddress ++ "oauth/v2/tokens",
    userInfoURL := externalAddress ++ "oauth/v2/userinfo" }

/-- The manager's refreshing configuration; durations are int64 nanoseconds
as in Go's `time.Duration`. -/
structure RefreshingConfig where
  accessTokenExp : Int
  refreshTokenExp : Int
  isGenerateRefresh : Bool
deriving DecidableEq

/-- `NewEndpoint` (endpoint.go lines 39-43): the refreshing configuration
installed on the manager, with `IsGenerateRefresh := refreshTokenExpiry > 0`. -/
def newEndpointRefreshingConfig (accessTokenExpiry refreshTokenExpiry : Int) :
    RefreshingConfig :=
  { accessTokenExp := accessTokenExpiry,
    refreshTokenExp := refreshTokenExpiry,
    isGenerateRefresh := decide (refreshTokenExpiry > 0) }

/-- Modelled from the spec: the external protocol engine mints a companion
refresh token exactly when the configured `IsGenerateRefresh` flag is set
(spec section 4.3); the engine itself is an out-of-scope collaborator. -/
def mintsRefreshToken (cfg : RefreshingConfig) : Bool := cfg.isGenerateRefresh

/- ## The overlay inspector (src/satellite/overlay/inspector.go) -/

/-- A node identifier as reported by the overlay service's Inspect. -/
structure NodeID where
  id : String
deriving DecidableEq

/-- An error from the overlay service. -/
structure OverlayError where
  msg : String
deriving DecidableEq

/-- The internalpb `CountNodesResponse`; `Count` is an int64. -/
structure CountNodesResponse where
  count : Int
deriving DecidableEq

/-- The overlay service as the inspector sees it: the outcome of its
`Inspect` call (the list of overlay keys, or an error). -/
structure OverlayService where
  inspect : Except OverlayError (List NodeID)

/-- The `Inspector` of inspector.go. -/
structure Inspector where
  service : OverlayService

/-- `Inspector.CountNodes` (inspector.go lines 26-36): forward an Inspect
error as `(nil, err)`, otherwise count the keys. -/
def Inspector.countNodes (srv : Inspector) : Except OverlayError CountNodesResponse :=
  match srv.service.inspect with
  | .error err => .error err
  | .ok overlayKeys => .ok { count := (overlayKeys.length : Int) }

/- ## Concrete environments used by the witnesses -/

/-- A concrete endpoint environment: token "tok1" is bound to the active
user "u1", token "tokbad" carries a malformed scope, every other token is
unknown; the protocol engine always reports an error. -/
def sampleEndpoint : Endpoint :=
  { getByAccess := fun t =>
      if t = "tok1" then
        .ok (some ⟨"project:alpha bucket:b1 bucket:b2 cubbyhole:c%20x", "u1"⟩)
      else if t = "tokbad" then .ok (some ⟨"malformed", "u1"⟩)
      else .ok none,
    uuidFromString := fun s => if s = "u1" then some ⟨"u1"⟩ else none,
    getUser := fun uid =>
      if uid = ⟨"u1"⟩ then some ⟨⟨"u1"⟩, "alice@example.test", UserStatus.active⟩
      else none,
    marshalUserInfo := fun ui => .ok ui.email,
    marshalConfig := fun c => .ok c.issuer,
    handleAuthorizeRequest := fun _ => some ⟨"unauthorized: invalid session: detail"⟩,
    handleTokenRequest := fun _ => some ⟨"invalid_grant: code expired"⟩,
    config := newEndpointConfig "https://sat.example/" }

/-- Like `sampleEndpoint`, but user "u1" has been deleted. -/
def sampleInactiveEndpoint : Endpoint :=
  { sampleEndpoint with
      getUser := fun uid =>
        if uid = ⟨"u1"⟩ then some ⟨⟨"u1"⟩, "bob@example.test", UserStatus.deleted⟩
        else none }

/- ## The claims -/

/-- C2: for every structured Scope, decoding its flat string encoding gives
back an equal Scope, and encoding is deterministic: equal Scopes serialize
to the same string. -/
theorem scope_encode_decode_roundtrip (s : Scope) :
    decodeScope (encodeScope s) = some s ∧
    ∀ t : Scope, t = s → encodeScope t = encodeScope s :=
  ⟨decodeScope_encodeScope s, fun _ ht => congrArg encodeScope ht⟩

theorem scope_encode_decode_roundtrip_witness :
    decodeScope (encodeScope ⟨"my project", ["b1", "b 2%"], "cub%by"⟩) =
      some ⟨"my project", ["b1", "b 2%"], "cub%by"⟩ :=
  (scope_encode_decode_roundtrip ⟨"my project", ["b1", "b 2%"], "cub%by"⟩).1

/-- C1: every user-info failure — Authorization header missing or without
the exact bearer marker, token unknown to the store, scope failing to
parse, user id failing to parse, user lookup failing, or account status
not active — yields the identical opaque response, 401 with an empty body,
so no failure cause is distinguishable from another. -/
theorem userInfo_failures_all_401_empty (e : Endpoint) (r : Request) :
    (goStartsWith r.authorization "Bearer " = false →
        e.userInfo r = httpError "" 401) ∧
    (goStartsWith r.authorization "Bearer " = true →
      ((e.getByAccess (goTrimHead r.authorization "Bearer ") = .error () →
          e.userInfo r = httpError "" 401) ∧
       (e.getByAccess (goTrimHead r.authorization "Bearer ") = .ok none →
          e.userInfo r = httpError "" 401) ∧
       (∀ info, e.getByAccess (goTrimHead r.authorization "Bearer ") = .ok (some info) →
          ((parseScope info.scope = none → e.userInfo r = httpError "" 401) ∧
           (∀ ui, parseScope info.scope = some ui →
             ((e.uuidFromString info.userID = none → e.userInfo r = httpError "" 401) ∧
              (∀ uid, e.uuidFromString info.userID = some uid →
                ((e.getUser uid = none → e.userInfo r = httpError "" 401) ∧
                 (∀ u, e.getUser uid = some u → u.status ≠ UserStatus.active →
                    e.userInfo r = httpError "" 401))))))))) := by
  refine ⟨?_, ?_⟩
  · intro h
    simp [Endpoint.userInfo, h]
  · intro hp
    have hui : ∀ info, e.getByAccess (goTrimHead r.authorization "Bearer ")
        = .ok (some info) → e.userInfo r = e.userInfoWithToken info := by
      intro info hinfo
      simp [Endpoint.userInfo, hp, hinfo]
    refine ⟨?_, ?_, ?_⟩
    · intro h
      simp [Endpoint.userInfo, hp, h]
    · intro h
      simp [Endpoint.userInfo, hp, h]
    · intro info hinfo
      rw [hui info hinfo]
      refine ⟨?_, ?_⟩
      · intro h
        simp [Endpoint.userInfoWithToken, h]
      · intro ui hps
        refine ⟨?_, ?_⟩
        · intro h
          simp [Endpoint.userInfoWithToken, hps, h]
        · intro uid huid
          refine ⟨?_, ?_⟩
          · intro h
            simp [Endpoint.userInfoWithToken, hps, huid, h]
          · intro u hu hst
            simp [Endpoint.userInfoWithToken, hps, huid, hu, hst]

theorem userInfo_failures_all_401_empty_witness :
    Endpoint.userInfo sampleEndpoint ⟨"Bearer tokbad"⟩ = httpError "" 401 := by
  have h := userInfo_failures_all_401_empty sampleEndpoint ⟨"Bearer tokbad"⟩
  exact ((h.2 (by decide)).2.2 ⟨"malformed", "u1"⟩ (by rfl)).1 (by decide)

/-- C3: on a successful user-info request the returned document's standard
claims come from the freshly resolved user record (subject and email from
the user, the verification flag set by the handler after the active check)
while the resource-set claims come from the token's decoded scope. -/
theorem userInfo_success_claims_sources (e : Endpoint) (r : Request)
    (info : TokenInfo) (ui : UserInfo) (uid : UUID) (u : User)
    (h1 : goStartsWith r.authorization "Bearer " = true)
    (h2 : e.getByAccess (goTrimHead r.authorization "Bearer ") = .ok (some info))
    (h3 : parseScope info.scope = some ui)
    (h4 : e.uuidFromString info.userID = some uid)
    (h5 : e.getUser uid = some u)
    (h6 : u.status = UserStatus.active) :
    e.userInfo r =
      match e.marshalUserInfo
          { subject := u.id, email := u.email, emailVerified := true,
            project := ui.project, buckets := ui.buckets,
            cubbyhole := ui.cubbyhole } with
      | .error _ => httpError "" 500
      | .ok data => { status := 200, body := data } := by
  simp [Endpoint.userInfo, Endpoint.userInfoWithToken, h1, h2, h3, h4, h5, h6]

theorem userInfo_success_claims_sources_witness :
    Endpoint.userInfo sampleEndpoint ⟨"Bearer tok1"⟩ = ⟨200, "alice@example.test"⟩ := by
  have h := userInfo_success_claims_sources sampleEndpoint ⟨"Bearer tok1"⟩
      ⟨"project:alpha bucket:b1 bucket:b2 cubbyhole:c%20x", "u1"⟩
      ⟨⟨""⟩, "", false, "alpha", ["b1", "b2"], "c x"⟩
      ⟨"u1"⟩ ⟨⟨"u1"⟩, "alice@example.test", UserStatus.active⟩
      (by decide) (by rfl) (by decide) (by rfl) (by rfl) rfl
  exact h.trans rfl

/-- C5: a token resolving to a user whose account is not active is answered
with the opaque 401, even though the token was found and its scope and
bound user id decoded successfully. -/
theorem userInfo_inactive_account_401 (e : Endpoint) (r : Request)
    (info : TokenInfo) (ui : UserInfo) (uid : UUID) (u : User)
    (h1 : goStartsWith r.authorization "Bearer " = true)
    (h2 : e.getByAccess (goTrimHead r.authorization "Bearer ") = .ok (some info))
    (h3 : parseScope info.scope = some ui)
    (h4 : e.uuidFromString info.userID = some uid)
    (h5 : e.getUser uid = some u)
    (h6 : u.status ≠ UserStatus.active) :
    e.userInfo r = httpError "" 401 := by
  simp [Endpoint.userInfo, Endpoint.userInfoWithToken, h1, h2, h3, h4, h5, h6]

theorem userInfo_inactive_account_401_witness :
    Endpoint.userInfo sampleInactiveEndpoint ⟨"Bearer tok1"⟩ = httpError "" 401 :=
  userInfo_inactive_account_401 sampleInactiveEndpoint ⟨"Bearer tok1"⟩
    ⟨"project:alpha bucket:b1 bucket:b2 cubbyhole:c%20x", "u1"⟩
    ⟨⟨""⟩, "", false, "alpha", ["b1", "b2"], "c x"⟩
    ⟨"u1"⟩ ⟨⟨"u1"⟩, "bob@example.test", UserStatus.deleted⟩
    (by decide) (by rfl) (by decide) (by rfl) (by rfl) (by decide)

theorem string_data_inj (a b : String) (h : a.data = b.data) : a = b := by
  cases a
  cases b
  exact congrArg String.mk h

/-- C7: the user-info handler accepts exactly the case-sensitive bearer
marker: without it the request is rejected 401 for every possible store;
with it, exactly the marker is stripped (prepending it back restores the
header) and the remainder is the value looked up in the token store, whose
absence (error or nil record) yields 401. -/
theorem userInfo_bearer_check_and_strip (e : Endpoint) (r : Request) :
    (goStartsWith r.authorization "Bearer " = false →
        ∀ e2 : Endpoint, e2.userInfo r = httpError "" 401) ∧
    (goStartsWith r.authorization "Bearer " = true →
      (("Bearer " ++ goTrimHead r.authorization "Bearer " = r.authorization) ∧
       (e.getByAccess (goTrimHead r.authorization "Bearer ") = .error () →
          e.userInfo r = httpError "" 401) ∧
       (e.getByAccess (goTrimHead r.authorization "Bearer ") = .ok none →
          e.userInfo r = httpError "" 401) ∧
       (∀ info, e.getByAccess (goTrimHead r.authorization "Bearer ") = .ok (some info) →
          e.userInfo r = e.userInfoWithToken info))) := by
  refine ⟨?_, ?_⟩
  · intro h e2
    simp [Endpoint.userInfo, h]
  · intro hp
    refine ⟨?_, ?_, ?_, ?_⟩
    · have hpre : "Bearer ".data <+: r.authorization.data := by
        have hb : "Bearer ".data.isPrefixOf r.authorization.data = true := hp
        exact List.isPrefixOf_iff_prefix.mp hb
      obtain ⟨t, ht⟩ := hpre
      have hdrop : r.authorization.data.drop ("Bearer ".data.length) = t := by
        rw [← ht, List.drop_left]
      apply string_data_inj
      rw [String.data_append]
      have hkey : goTrimHead r.authorization "Bearer "
          = String.mk (r.authorization.data.drop ("Bearer ".data.length)) := by
        unfold goTrimHead
        rw [if_pos hp]
      rw [hkey, hdrop]
      exact ht
    · intro h
      simp [Endpoint.userInfo, hp, h]
    · intro h
      simp [Endpoint.userInfo, hp, h]
    · intro info h
      simp [Endpoint.userInfo, hp, h]

theorem userInfo_bearer_check_and_strip_witness :
    Endpoint.userInfo sampleEndpoint ⟨"bearer tok1"⟩ = httpError "" 401 ∧
    Endpoint.userInfo sampleEndpoint ⟨"Bearer missing"⟩ = httpError "" 401 :=
  ⟨(userInfo_bearer_check_and_strip sampleEndpoint ⟨"bearer tok1"⟩).1
      (by decide) sampleEndpoint,
   ((userInfo_bearer_check_and_strip sampleEndpoint ⟨"Bearer missing"⟩).2
      (by decide)).2.2.1 (by rfl)⟩

/-- C10: a header that is exactly the bearer marker with nothing after it
passes the marker check; the empty string is what reaches the store's
GetByAccess, and only an error or nil record from that lookup produces the
401 at this stage — otherwise the handler continues with the token. -/
theorem userInfo_bearer_only_reaches_store (e : Endpoint) :
    goStartsWith "Bearer " "Bearer " = true ∧
    goTrimHead "Bearer " "Bearer " = "" ∧
    e.userInfo ⟨"Bearer "⟩ =
      (match e.getByAccess "" with
       | .error _ => httpError "" 401
       | .ok none => httpError "" 401
       | .ok (some info) => e.userInfoWithToken info) := by
  have hp : goStartsWith "Bearer " "Bearer " = true := by decide
  have ht : goTrimHead "Bearer " "Bearer " = "" := by decide
  refine ⟨hp, ht, ?_⟩
  simp [Endpoint.userInfo, hp, ht]

/-- C4 counterexample: when the delegated protocol engine reports an error,
AuthorizeUser writes the engine error's own message into the 400 response
body — the body is not free of internal detail. -/
theorem authorize_error_body_contains_detail :
    Endpoint.authorizeUser sampleEndpoint ⟨""⟩ =
      some ⟨400, "unauthorized: invalid session: detail"⟩ ∧
    Endpoint.authorizeUser sampleEndpoint ⟨""⟩ ≠ some ⟨400, ""⟩ :=
  ⟨rfl, by decide⟩

/-- C4 amended: every engine-reported failure of AuthorizeUser and Tokens
is surfaced as a 400 response whose body is the engine error's message
(`err.Error()`), so the internal detail is included rather than withheld;
when the engine reports no error the handlers write nothing further. -/
theorem authorize_tokens_surface_400_with_message (e : Endpoint) (r : Request) :
    (∀ err, e.handleAuthorizeRequest r = some err →
        e.authorizeUser r = some ⟨400, err.message⟩) ∧
    (e.handleAuthorizeRequest r = none → e.authorizeUser r = none) ∧
    (∀ err, e.handleTokenRequest r = some err →
        e.tokens r = some ⟨400, err.message⟩) ∧
    (e.handleTokenRequest r = none → e.tokens r = none) := by
  refine ⟨?_, ?_, ?_, ?_⟩
  · intro err h
    simp [Endpoint.authorizeUser, h, httpError]
  · intro h
    simp [Endpoint.authorizeUser, h]
  · intro err h
    simp [Endpoint.tokens, h, httpError]
  · intro h
    simp [Endpoint.tokens, h]

theorem authorize_tokens_surface_400_with_message_witness :
    Endpoint.tokens sampleEndpoint ⟨""⟩ = some ⟨400, "invalid_grant: code expired"⟩ :=
  (authorize_tokens_surface_400_with_message sampleEndpoint ⟨""⟩).2.2.1
    ⟨"invalid_grant: code expired"⟩ rfl

/-- C6: the manager is configured to generate a refresh token alongside the
access token exactly when the configured refresh-token duration is strictly
positive; a zero or negative duration disables refresh-token minting. -/
theorem refresh_minted_iff_positive_duration (a r : Int) :
    mintsRefreshToken (newEndpointRefreshingConfig a r) = decide (0 < r) ∧
    (mintsRefreshToken (newEndpointRefreshingConfig a r) = true ↔ 0 < r) := by
  constructor
  · rfl
  · simp [mintsRefreshToken, newEndpointRefreshingConfig]

/-- C8: the discovery handler serves, with no precondition, the provider
configuration derived from the external address — issuer and the three
endpoint URLs, exactly the four json fields of ProviderConfig — as a 200
response, and answers 500 when serialization fails. -/
theorem wellknown_fields_and_statuses (ext : String) (e : Endpoint) :
    (newEndpointConfig ext).jsonFields =
      [("issuer", ext),
       ("authorization_endpoint", ext ++ "oauth/v2/authorize"),
       ("token_endpoint", ext ++ "oauth/v2/tokens"),
       ("userinfo_endpoint", ext ++ "oauth/v2/userinfo")] ∧
    (∀ data, e.marshalConfig e.config = .ok data →
        e.wellKnownConfiguration = ⟨200, data⟩) ∧
    (∀ u, e.marshalConfig e.config = .error u →
        e.wellKnownConfiguration = httpError "" 500) := by
  refine ⟨rfl, ?_, ?_⟩
  · intro data h
    simp [Endpoint.wellKnownConfiguration, h]
  · intro u h
    simp [Endpoint.wellKnownConfiguration, h, httpError]

theorem wellknown_fields_and_statuses_witness :
    (newEndpointConfig "https://sat.example/").jsonFields =
      [("issuer", "https://sat.example/"),
       ("authorization_endpoint", "https://sat.example/oauth/v2/authorize"),
       ("token_endpoint", "https://sat.example/oauth/v2/tokens"),
       ("userinfo_endpoint", "https://sat.example/oauth/v2/userinfo")] ∧
    Endpoint.wellKnownConfiguration sampleEndpoint = ⟨200, "https://sat.example/"⟩ := by
  have h := wellknown_fields_and_statuses "https://sat.example/" sampleEndpoint
  exact ⟨h.1.trans (by decide), h.2.1 "https://sat.example/" rfl⟩

/-- C9: CountNodes answers with the number of keys Inspect reports, and
returns a nil response together with the error exactly when Inspect fails. -/
theorem countNodes_matches_inspect (srv : Inspector) :
    (∀ keys, srv.service.inspect = .ok keys →
        srv.countNodes = .ok { count := (keys.length : Int) }) ∧
    (∀ err, srv.service.inspect = .error err → srv.countNodes = .error err) := by
  refine ⟨?_, ?_⟩
  · intro keys h
    simp [Inspector.countNodes, h]
  · intro err h
    simp [Inspector.countNodes, h]

theorem countNodes_matches_inspect_witness :
    Inspector.countNodes ⟨⟨.ok [⟨"n1"⟩, ⟨"n2"⟩]⟩⟩ = .ok ⟨(2 : Int)⟩ :=
  ((countNodes_matches_inspect ⟨⟨.ok [⟨"n1"⟩, ⟨"n2"⟩]⟩⟩).1
    [⟨"n1"⟩, ⟨"n2"⟩] rfl).trans rfl
